import Mathlib

/-!
Verification of the dem2terrainrgb pipeline orchestrator
(src/dem2terrainrgb.py) and tile server (src/serve_tiles.py).

Paths are modelled as lists of characters.  The filesystem is modelled as a
pair of lists (files present, directories present).  External command-line
tools (gdalwarp, rio rgbify, gdal2tiles.py) are modelled as an environment
mapping an issued command and the filesystem at invocation time to an exit
status and a resulting filesystem; `subprocess.check_output` raises on a
non-zero exit status, modelled with `Except`.  Each operation additionally
returns the list of subprocess invocations it performed, each paired with
the filesystem state at the moment of the call, so that properties about
what was invoked, and in which filesystem state, can be stated directly.
-/

abbrev FPath := List Char

structure FS where
  files : List FPath
  dirs : List FPath
deriving DecidableEq

def FS.fileExists (fs : FS) (p : FPath) : Bool :=
  decide (p ∈ fs.files)

def FS.dirExists (fs : FS) (p : FPath) : Bool :=
  decide (p ∈ fs.dirs)

/-- Model of `os.path.exists`: true for a file or a directory at the path. -/
def FS.pathExists (fs : FS) (p : FPath) : Bool :=
  fs.fileExists p || fs.dirExists p

/-- Model of `os.makedirs` (guarded in the source by an existence check). -/
def FS.makedirs (fs : FS) (p : FPath) : FS :=
  { fs with dirs := p :: fs.dirs }

/-- Model of `os.remove`: removes the file at the path. -/
def FS.removeFile (fs : FS) (p : FPath) : FS :=
  { fs with files := fs.files.filter (fun q => decide (q ≠ p)) }

/-- Model of writing a file (PIL `img.save`): the path becomes present. -/
def FS.createFile (fs : FS) (p : FPath) : FS :=
  { fs with files := p :: fs.files }

/-- Executable prefix test on paths. -/
def isPrefixSeq : FPath → FPath → Bool
  | [], _ => true
  | _ :: _, [] => false
  | a :: as, b :: bs => decide (a = b) && isPrefixSeq as bs

/-- Model of `shutil.rmtree`: removes the directory and everything below it. -/
def FS.rmtree (fs : FS) (d : FPath) : FS :=
  { files := fs.files.filter (fun q => !(decide (q = d) || isPrefixSeq (d ++ ['/']) q)),
    dirs := fs.dirs.filter (fun q => !(decide (q = d) || isPrefixSeq (d ++ ['/']) q)) }

/-- Model of `os.path.basename`: the part after the last separator. -/
def basename (p : FPath) : FPath :=
  (p.reverse.takeWhile (fun c => c != '/')).reverse

/-- Root part of `os.path.splitext`, for a separator-free input (the source
only applies it to the result of `os.path.basename`): everything before the
last dot, provided some character strictly before that dot is not a dot;
otherwise the whole input. -/
def splitextRoot (p : FPath) : FPath :=
  let r := p.reverse
  let afterDot := r.takeWhile (fun c => c != '.')
  if afterDot.length = r.length then p
  else
    let before := (r.drop (afterDot.length + 1)).reverse
    if before.any (fun c => c != '.') then before else p

/-- Worker for `pyReplace`, structurally recursive on a fuel argument that
`pyReplace` instantiates with the input length (an upper bound on the number
of recursion steps, so the fuel-exhausted branch is never reached). -/
def pyReplaceAux (new old : FPath) : Nat → FPath → FPath
  | _, [] => []
  | 0, s => s
  | fuel + 1, c :: rest =>
    if old ≠ [] ∧ isPrefixSeq old (c :: rest) = true then
      new ++ pyReplaceAux new old fuel ((c :: rest).drop old.length)
    else
      c :: pyReplaceAux new old fuel rest

/-- Model of Python `str.replace old new`: replaces every non-overlapping
occurrence of `old`, scanning left to right. -/
def pyReplace (s old new : FPath) : FPath :=
  pyReplaceAux new old s.length s

/-- Executable suffix test on paths. -/
def isSuffixSeq (n h : FPath) : Bool :=
  isPrefixSeq n.reverse h.reverse

/-- Executable substring (contiguous) test on paths. -/
def hasInfixSeq (n : FPath) (h : FPath) : Bool :=
  isPrefixSeq n h ||
    match h with
    | [] => false
    | _ :: t => hasInfixSeq n t

/-- The commands the orchestrator hands to `subprocess.check_output`,
with the fixed flag values the source interpolates into each command
string recorded literally. -/
inductive Cmd where
  | gdalwarp (t_srs dstnodata tiled compress bigtiff : FPath) (src dst : FPath)
  | rioRgbify (base interval : FPath) (src dst : FPath)
  | gdal2tilesCmd (zoom resampling tilesize processes : FPath) (xyz : Bool) (src dst : FPath)
deriving DecidableEq

/-- The output-file argument of a command. -/
def Cmd.dst : Cmd → FPath
  | .gdalwarp _ _ _ _ _ _ d => d
  | .rioRgbify _ _ _ d => d
  | .gdal2tilesCmd _ _ _ _ _ _ d => d

inductive PyError where
  | calledProcess (cmd : Cmd) (returncode : Nat)
  | imageError (file : FPath)
deriving DecidableEq

deriving instance DecidableEq for Except

/-- Behaviour of the external tools: exit status and resulting filesystem. -/
abbrev Env := Cmd → FS → Nat × FS

/-- Behaviour of the image library: whether `Image.open` respectively
`img.save` raises for the tile file being processed. -/
structure ImgEnv where
  openFails : FPath → Bool
  saveFails : FPath → Bool

/-- Events of the `png2webp` loop: a (lossless, `"WEBP"`-format) save of a
re-encoded tile, and a removal of an original tile. -/
inductive TileEvent where
  | save (src dst fmt : FPath) (lossless : Bool)
  | removeOrig (src : FPath)
deriving DecidableEq

/-- Whether an event writes to or deletes the given path. -/
def TileEvent.touches (ev : TileEvent) (p : FPath) : Bool :=
  match ev with
  | .save _ dst _ _ => decide (dst = p)
  | .removeOrig src => decide (src = p)

structure Dem2TerrainRgb where
  dem : FPath
  dist : FPath
  tmp : FPath
  zoom : FPath
deriving DecidableEq

/-- `Dem2TerrainRgb.fill_nodata` (src/dem2terrainrgb.py lines 32-61). -/
def Dem2TerrainRgb.fill_nodata (self : Dem2TerrainRgb) (env : Env) (fs : FS) :
    Except PyError FPath × FS × List (Cmd × FS) :=
  let fs := if fs.pathExists self.tmp then fs else fs.makedirs self.tmp
  let filename := splitextRoot (basename self.dem)
  let filled_file := self.tmp ++ '/' :: (filename ++ "_without_nodata.tif".toList)
  let fs := if fs.pathExists filled_file then fs.removeFile filled_file else fs
  let cmd := Cmd.gdalwarp ("EPSG:3857".toList) "None".toList ("TILED=YES".toList)
    "COMPRESS=DEFLATE".toList ("BIGTIFF=IF_NEEDED".toList) self.dem filled_file
  let res := env cmd fs
  if res.1 = 0 then (Except.ok filled_file, res.2, [(cmd, fs)])
  else (Except.error (PyError.calledProcess cmd res.1), res.2, [(cmd, fs)])

/-- `Dem2TerrainRgb.rgbify` (src/dem2terrainrgb.py lines 63-103). -/
def Dem2TerrainRgb.rgbify (self : Dem2TerrainRgb) (filled_dem : FPath) (env : Env) (fs : FS) :
    Except PyError FPath × FS × List (Cmd × FS) :=
  let filename := splitextRoot (basename self.dem)
  let rgbified_dem := self.tmp ++ '/' :: (filename ++ "_RGB.tif".toList)
  let fs := if fs.pathExists rgbified_dem then fs.removeFile rgbified_dem else fs
  let cmd := Cmd.rioRgbify ("-10000".toList) "0.1".toList filled_dem rgbified_dem
  let res := env cmd fs
  if res.1 = 0 then (Except.ok rgbified_dem, res.2, [(cmd, fs)])
  else (Except.error (PyError.calledProcess cmd res.1), res.2, [(cmd, fs)])

/-- `Dem2TerrainRgb.gdal2tiles` (src/dem2terrainrgb.py lines 105-128). -/
def Dem2TerrainRgb.gdal2tiles (self : Dem2TerrainRgb) (rgbified_dem : FPath) (env : Env) (fs : FS) :
    Except PyError FPath × FS × List (Cmd × FS) :=
  let fs := if fs.pathExists self.dist then fs.rmtree self.dist else fs
  let cmd := Cmd.gdal2tilesCmd self.zoom ("near".toList) "512".toList ("8".toList)
    true rgbified_dem self.dist
  let res := env cmd fs
  if res.1 = 0 then (Except.ok self.dist, res.2, [(cmd, fs)])
  else (Except.error (PyError.calledProcess cmd res.1), res.2, [(cmd, fs)])

/-- Model of the recursive glob call of png2webp (pattern dist, slash,
`**/*.png`): the files
below the destination directory whose name ends in `.png`. -/
def globPngRecursive (fs : FS) (dist : FPath) : List FPath :=
  fs.files.filter (fun p => isPrefixSeq (dist ++ ['/']) p && isSuffixSeq (".png".toList) p)

/-- The loop body of `png2webp` (src/dem2terrainrgb.py lines 132-136),
one iteration per discovered file, aborting at the first image error. -/
def png2webpLoop (removePNG : Bool) (imgEnv : ImgEnv) :
    List FPath → FS → Except PyError Unit × FS × List TileEvent
  | [], fs => (Except.ok (), fs, [])
  | f :: rest, fs =>
    if imgEnv.openFails f then (Except.error (PyError.imageError f), fs, [])
    else
      let out := pyReplace f (".png".toList) ".webp".toList
      if imgEnv.saveFails f then (Except.error (PyError.imageError f), fs, [])
      else
        let fs1 := fs.createFile out
        let ev1 := TileEvent.save f out ("WEBP".toList) true
        if removePNG then
          let r := png2webpLoop removePNG imgEnv rest (fs1.removeFile f)
          (r.1, r.2.1, ev1 :: TileEvent.removeOrig f :: r.2.2)
        else
          let r := png2webpLoop removePNG imgEnv rest fs1
          (r.1, r.2.1, ev1 :: r.2.2)

/-- `Dem2TerrainRgb.png2webp` (src/dem2terrainrgb.py lines 130-136). -/
def Dem2TerrainRgb.png2webp (self : Dem2TerrainRgb) (removePNG : Bool)
    (imgEnv : ImgEnv) (fs : FS) : Except PyError Unit × FS × List TileEvent :=
  png2webpLoop removePNG imgEnv (globPngRecursive fs self.dist) fs

/-- The parsed command-line arguments (src/dem2terrainrgb.py lines 139-159). -/
structure Args where
  dem : FPath
  dist : FPath
  tmp : FPath
  zoom : FPath
  webp : Bool
  remove_png : Bool

/-- The constructor call on line 160. -/
def Args.toSelf (a : Args) : Dem2TerrainRgb :=
  ⟨a.dem, a.dist, a.tmp, a.zoom⟩

/-- The `__main__` block (src/dem2terrainrgb.py lines 157-165): the strictly
sequential pipeline, aborting at the first unhandled error. -/
def mainPipeline (args : Args) (env : Env) (imgEnv : ImgEnv) (fs : FS) :
    Except PyError Unit × FS × List (Cmd × FS) × List TileEvent :=
  let self := args.toSelf
  match self.fill_nodata env fs with
  | (Except.error e, fs1, tr1) => (Except.error e, fs1, tr1, [])
  | (Except.ok filled, fs1, tr1) =>
    match self.rgbify filled env fs1 with
    | (Except.error e, fs2, tr2) => (Except.error e, fs2, tr1 ++ tr2, [])
    | (Except.ok rgbified, fs2, tr2) =>
      match self.gdal2tiles rgbified env fs2 with
      | (Except.error e, fs3, tr3) => (Except.error e, fs3, tr1 ++ tr2 ++ tr3, [])
      | (Except.ok _, fs3, tr3) =>
        if args.webp then
          let r := self.png2webp args.remove_png imgEnv fs3
          (r.1, r.2.1, tr1 ++ tr2 ++ tr3, r.2.2)
        else (Except.ok (), fs3, tr1 ++ tr2 ++ tr3, [])

/-! The tile server (src/serve_tiles.py). -/

/-- `TileRequestHandler.end_headers` (src/serve_tiles.py lines 6-9): sends
the two CORS headers and then flushes the headers buffered so far. -/
def tileRequestHandlerEndHeaders (pending : List (FPath × FPath)) : List (FPath × FPath) :=
  pending ++ [("Access-Control-Allow-Origin".toList, "*".toList),
              ("Access-Control-Allow-Methods".toList, "GET".toList)]

/-- Bind address and port of the server (src/serve_tiles.py line 13). -/
def serverAddress : FPath × Nat := ("localhost".toList, 3002)

/-- Working directory the server changes into (src/serve_tiles.py line 12). -/
def servedRoot : FPath := "output/tiles".toList

/-! Terrain RGB encoding.  The pixel-level encoding is performed by the
external tool `rio rgbify`, whose code is not part of this repository; only
its invocation (with base -10000 and interval 0.1) is.  The encoding is
therefore modelled from the spec. -/

/-- Decoding of a terrain RGB pixel, as documented in the rgbify docstring
(src/dem2terrainrgb.py lines 65-68):
height = -10000 + ((R * 256 * 256 + G * 256 + B) * 0.1). -/
def terrainRgbDecode (r g b : Nat) : ℚ :=
  -10000 + ((r : ℚ) * 256 * 256 + (g : ℚ) * 256 + (b : ℚ)) * (1 / 10)

/-- Modelled from the spec: the encoding performed by the external tool
`rio rgbify` with base -10000 and interval 0.1 — the elevation offset above
the base is quantized to whole interval steps and the step count is packed
into three 8-bit channels. -/
def terrainRgbEncode (h : ℚ) : Nat × Nat × Nat :=
  let n := (⌊(h - (-10000)) / (1 / 10)⌋).toNat
  (n / 65536 % 256, n / 256 % 256, n % 256)

/-! Helper lemmas about the filesystem model. -/

theorem FS.fileExists_removeFile_self (fs : FS) (p : FPath) :
    (fs.removeFile p).fileExists p = false := by
  simp [FS.removeFile, FS.fileExists, List.mem_filter]

theorem FS.fileExists_eq_false_of_not_pathExists (fs : FS) (p : FPath)
    (h : ¬ fs.pathExists p = true) : fs.fileExists p = false := by
  simp only [FS.pathExists, Bool.or_eq_true, not_or, Bool.not_eq_true] at h
  exact h.1

theorem FS.dirExists_eq_false_of_not_pathExists (fs : FS) (p : FPath)
    (h : ¬ fs.pathExists p = true) : fs.dirExists p = false := by
  simp only [FS.pathExists, Bool.or_eq_true, not_or, Bool.not_eq_true] at h
  exact h.2

theorem FS.pathExists_rmtree_self (fs : FS) (d : FPath) :
    (fs.rmtree d).pathExists d = false := by
  simp [FS.rmtree, FS.pathExists, FS.fileExists, FS.dirExists, List.mem_filter]

theorem FS.pathExists_rmtree_under (fs : FS) (d p : FPath)
    (h : isPrefixSeq (d ++ ['/']) p = true) :
    (fs.rmtree d).pathExists p = false := by
  simp [FS.rmtree, FS.pathExists, FS.fileExists, FS.dirExists, List.mem_filter, h]

/-! Normal forms of the three tool stages: the branch on the exit status is
confined to the returned `Except` value, so that the filesystem and trace
components can be read off directly. -/

theorem fill_nodata_eq (self : Dem2TerrainRgb) (env : Env) (fs : FS) :
    self.fill_nodata env fs =
      (let fs1 := if fs.pathExists self.tmp then fs else fs.makedirs self.tmp
       let filled_file :=
         self.tmp ++ '/' :: (splitextRoot (basename self.dem) ++ "_without_nodata.tif".toList)
       let fs2 := if fs1.pathExists filled_file then fs1.removeFile filled_file else fs1
       let cmd := Cmd.gdalwarp ("EPSG:3857".toList) "None".toList ("TILED=YES".toList)
         "COMPRESS=DEFLATE".toList ("BIGTIFF=IF_NEEDED".toList) self.dem filled_file
       let res := env cmd fs2
       (if res.1 = 0 then Except.ok filled_file
        else Except.error (PyError.calledProcess cmd res.1), res.2, [(cmd, fs2)])) := by
  dsimp only [Dem2TerrainRgb.fill_nodata]
  repeat' split
  all_goals rfl

theorem rgbify_eq (self : Dem2TerrainRgb) (filled_dem : FPath) (env : Env) (fs : FS) :
    self.rgbify filled_dem env fs =
      (let rgbified_dem :=
         self.tmp ++ '/' :: (splitextRoot (basename self.dem) ++ "_RGB.tif".toList)
       let fs1 := if fs.pathExists rgbified_dem then fs.removeFile rgbified_dem else fs
       let cmd := Cmd.rioRgbify ("-10000".toList) "0.1".toList filled_dem rgbified_dem
       let res := env cmd fs1
       (if res.1 = 0 then Except.ok rgbified_dem
        else Except.error (PyError.calledProcess cmd res.1), res.2, [(cmd, fs1)])) := by
  dsimp only [Dem2TerrainRgb.rgbify]
  repeat' split
  all_goals rfl

theorem gdal2tiles_eq (self : Dem2TerrainRgb) (rgbified_dem : FPath) (env : Env) (fs : FS) :
    self.gdal2tiles rgbified_dem env fs =
      (let fs1 := if fs.pathExists self.dist then fs.rmtree self.dist else fs
       let cmd := Cmd.gdal2tilesCmd self.zoom ("near".toList) "512".toList ("8".toList)
         true rgbified_dem self.dist
       let res := env cmd fs1
       (if res.1 = 0 then Except.ok self.dist
        else Except.error (PyError.calledProcess cmd res.1), res.2, [(cmd, fs1)])) := by
  dsimp only [Dem2TerrainRgb.gdal2tiles]
  repeat' split
  all_goals rfl

/-! Claim theorems. -/

/-- Claim C3: for every source DEM path, temporary directory and destination,
fill_nodata returns (on success) exactly the path tmp, slash, the extension-free
base name of the DEM, and the suffix `_without_nodata.tif`; rgbify likewise with
the suffix `_RGB.tif`; and gdal2tiles returns the destination directory path. -/
theorem c3_deterministic_paths (self : Dem2TerrainRgb) (filled rgbified : FPath)
    (env : Env) (fs : FS) :
    (∀ p, (self.fill_nodata env fs).1 = Except.ok p →
      p = self.tmp ++ '/' :: (splitextRoot (basename self.dem) ++ "_without_nodata.tif".toList)) ∧
    (∀ p, (self.rgbify filled env fs).1 = Except.ok p →
      p = self.tmp ++ '/' :: (splitextRoot (basename self.dem) ++ "_RGB.tif".toList)) ∧
    (∀ p, (self.gdal2tiles rgbified env fs).1 = Except.ok p → p = self.dist) := by
  refine ⟨?_, ?_, ?_⟩ <;> intro p hp
  · rw [fill_nodata_eq] at hp
    dsimp only at hp
    repeat' split at hp
    all_goals first
      | exact (Except.ok.inj hp).symm
      | exact Except.noConfusion hp
  · rw [rgbify_eq] at hp
    dsimp only at hp
    repeat' split at hp
    all_goals first
      | exact (Except.ok.inj hp).symm
      | exact Except.noConfusion hp
  · rw [gdal2tiles_eq] at hp
    dsimp only at hp
    repeat' split at hp
    all_goals first
      | exact (Except.ok.inj hp).symm
      | exact Except.noConfusion hp

/-- Claim C1: each stage invokes its external tool exactly once (no retry);
a non-zero exit status makes the stage return the corresponding error
unhandled, with the filesystem exactly as the tool left it (no cleanup of
already-produced intermediates); and the pipeline aborts at the first stage
error, issuing no further tool invocation. -/
theorem c1_tool_failure_aborts (self : Dem2TerrainRgb) (args : Args)
    (filled rgbified : FPath) (env : Env) (imgEnv : ImgEnv) (fs : FS) :
    ((self.fill_nodata env fs).2.2.length = 1 ∧
      ∀ cmd fsPre, (self.fill_nodata env fs).2.2 = [(cmd, fsPre)] →
        (env cmd fsPre).1 ≠ 0 →
        (self.fill_nodata env fs).1 =
          Except.error (PyError.calledProcess cmd (env cmd fsPre).1) ∧
        (self.fill_nodata env fs).2.1 = (env cmd fsPre).2) ∧
    ((self.rgbify filled env fs).2.2.length = 1 ∧
      ∀ cmd fsPre, (self.rgbify filled env fs).2.2 = [(cmd, fsPre)] →
        (env cmd fsPre).1 ≠ 0 →
        (self.rgbify filled env fs).1 =
          Except.error (PyError.calledProcess cmd (env cmd fsPre).1) ∧
        (self.rgbify filled env fs).2.1 = (env cmd fsPre).2) ∧
    ((self.gdal2tiles rgbified env fs).2.2.length = 1 ∧
      ∀ cmd fsPre, (self.gdal2tiles rgbified env fs).2.2 = [(cmd, fsPre)] →
        (env cmd fsPre).1 ≠ 0 →
        (self.gdal2tiles rgbified env fs).1 =
          Except.error (PyError.calledProcess cmd (env cmd fsPre).1) ∧
        (self.gdal2tiles rgbified env fs).2.1 = (env cmd fsPre).2) ∧
    (∀ e fs1 tr1, args.toSelf.fill_nodata env fs = (Except.error e, fs1, tr1) →
      mainPipeline args env imgEnv fs = (Except.error e, fs1, tr1, [])) ∧
    (∀ p e fs1 tr1 fs2 tr2,
      args.toSelf.fill_nodata env fs = (Except.ok p, fs1, tr1) →
      args.toSelf.rgbify p env fs1 = (Except.error e, fs2, tr2) →
      mainPipeline args env imgEnv fs = (Except.error e, fs2, tr1 ++ tr2, [])) ∧
    (∀ p q e fs1 tr1 fs2 tr2 fs3 tr3,
      args.toSelf.fill_nodata env fs = (Except.ok p, fs1, tr1) →
      args.toSelf.rgbify p env fs1 = (Except.ok q, fs2, tr2) →
      args.toSelf.gdal2tiles q env fs2 = (Except.error e, fs3, tr3) →
      mainPipeline args env imgEnv fs = (Except.error e, fs3, tr1 ++ tr2 ++ tr3, [])) := by
  refine ⟨⟨?_, ?_⟩, ⟨?_, ?_⟩, ⟨?_, ?_⟩, ?_, ?_, ?_⟩
  · rw [fill_nodata_eq]
    rfl
  · intro cmd fsPre htr hne
    rw [fill_nodata_eq] at htr ⊢
    dsimp only at htr ⊢
    simp only [List.cons.injEq, Prod.mk.injEq, and_true] at htr
    obtain ⟨hc, hf⟩ := htr
    subst hc
    subst hf
    exact ⟨by rw [if_neg hne], rfl⟩
  · rw [rgbify_eq]
    rfl
  · intro cmd fsPre htr hne
    rw [rgbify_eq] at htr ⊢
    dsimp only at htr ⊢
    simp only [List.cons.injEq, Prod.mk.injEq, and_true] at htr
    obtain ⟨hc, hf⟩ := htr
    subst hc
    subst hf
    exact ⟨by rw [if_neg hne], rfl⟩
  · rw [gdal2tiles_eq]
    rfl
  · intro cmd fsPre htr hne
    rw [gdal2tiles_eq] at htr ⊢
    dsimp only at htr ⊢
    simp only [List.cons.injEq, Prod.mk.injEq, and_true] at htr
    obtain ⟨hc, hf⟩ := htr
    subst hc
    subst hf
    exact ⟨by rw [if_neg hne], rfl⟩
  · intro e fs1 tr1 hfill
    dsimp only [mainPipeline]
    rw [hfill]
  · intro p e fs1 tr1 fs2 tr2 hfill hrgb
    dsimp only [mainPipeline]
    rw [hfill]
    dsimp only
    rw [hrgb]
  · intro p q e fs1 tr1 fs2 tr2 fs3 tr3 hfill hrgb htiles
    dsimp only [mainPipeline]
    rw [hfill]
    dsimp only
    rw [hrgb]
    dsimp only
    rw [htiles]

/-- Claim C2: before invoking its external tool, fill_nodata has deleted any
pre-existing file at its computed output path, rgbify likewise, and
gdal2tiles has recursively deleted the destination directory if it existed:
in the filesystem state each tool is invoked on, the output path of the
command holds no file, and nothing remains at or below the destination. -/
theorem c2_full_regeneration (self : Dem2TerrainRgb) (filled rgbified : FPath)
    (env : Env) (fs : FS) :
    (∀ cmd fsPre, (self.fill_nodata env fs).2.2 = [(cmd, fsPre)] →
      fsPre.fileExists cmd.dst = false) ∧
    (∀ cmd fsPre, (self.rgbify filled env fs).2.2 = [(cmd, fsPre)] →
      fsPre.fileExists cmd.dst = false) ∧
    (∀ cmd fsPre, (self.gdal2tiles rgbified env fs).2.2 = [(cmd, fsPre)] →
      fsPre.pathExists self.dist = false ∧
      (fs.pathExists self.dist = true →
        ∀ p, isPrefixSeq (self.dist ++ ['/']) p = true → fsPre.pathExists p = false)) := by
  refine ⟨?_, ?_, ?_⟩ <;> intro cmd fsPre htr
  · rw [fill_nodata_eq] at htr
    dsimp only at htr
    simp only [List.cons.injEq, Prod.mk.injEq, and_true] at htr
    obtain ⟨hc, hf⟩ := htr
    subst hc
    subst hf
    dsimp only [Cmd.dst]
    split <;> split
    · exact FS.fileExists_removeFile_self _ _
    · next hne => exact FS.fileExists_eq_false_of_not_pathExists _ _ hne
    · exact FS.fileExists_removeFile_self _ _
    · next hne => exact FS.fileExists_eq_false_of_not_pathExists _ _ hne
  · rw [rgbify_eq] at htr
    dsimp only at htr
    simp only [List.cons.injEq, Prod.mk.injEq, and_true] at htr
    obtain ⟨hc, hf⟩ := htr
    subst hc
    subst hf
    dsimp only [Cmd.dst]
    split
    · exact FS.fileExists_removeFile_self _ _
    · next hne => exact FS.fileExists_eq_false_of_not_pathExists _ _ hne
  · rw [gdal2tiles_eq] at htr
    dsimp only at htr
    simp only [List.cons.injEq, Prod.mk.injEq, and_true] at htr
    obtain ⟨hc, hf⟩ := htr
    subst hc
    subst hf
    constructor
    · split
      · exact FS.pathExists_rmtree_self _ _
      · next hne =>
        simp only [Bool.not_eq_true] at hne
        exact hne
    · intro hex p hp
      rw [if_pos hex]
      exact FS.pathExists_rmtree_under _ _ _ hp

/-- Claim C4: rgbify always invokes the external encoding tool with fixed base
-10000 and fixed interval 0.1, whatever instance, argument, tool behaviour and
filesystem it is given; no caller-facing parameter can change them. -/
theorem c4_rgbify_fixed_base_interval (self : Dem2TerrainRgb) (filled : FPath)
    (env : Env) (fs : FS) :
    ∃ fsPre dst, (self.rgbify filled env fs).2.2 =
      [(Cmd.rioRgbify ("-10000".toList) "0.1".toList filled dst, fsPre)] := by
  rw [rgbify_eq]
  exact ⟨_, _, rfl⟩

/-- Claim C8: the tile server adds Access-Control-Allow-Origin and
Access-Control-Allow-Methods headers to every response it finalizes (and
keeps the headers already buffered), binds to localhost on port 3002, and
serves the fixed relative root output/tiles. -/
theorem c8_server_headers_and_config :
    (∀ pending : List (FPath × FPath),
      ("Access-Control-Allow-Origin".toList, "*".toList) ∈
        tileRequestHandlerEndHeaders pending ∧
      ("Access-Control-Allow-Methods".toList, "GET".toList) ∈
        tileRequestHandlerEndHeaders pending ∧
      tileRequestHandlerEndHeaders pending =
        pending ++ [("Access-Control-Allow-Origin".toList, "*".toList),
                    ("Access-Control-Allow-Methods".toList, "GET".toList)]) ∧
    serverAddress = ("localhost".toList, 3002) ∧
    servedRoot = "output/tiles".toList := by
  refine ⟨?_, rfl, rfl⟩
  intro pending
  refine ⟨?_, ?_, rfl⟩ <;> simp [tileRequestHandlerEndHeaders]

/-! Behaviour of the png2webp loop. -/

/-- On a run that raises no image error, the loop performs, for each
discovered file in order, a lossless WEBP save to the `.png`-to-`.webp`
replaced path, followed by a removal of the original exactly when the
remove flag is set. -/
theorem png2webpLoop_trace_of_ok (removePNG : Bool) (imgEnv : ImgEnv) :
    ∀ files fs, (png2webpLoop removePNG imgEnv files fs).1 = Except.ok () →
      (png2webpLoop removePNG imgEnv files fs).2.2 =
        files.flatMap (fun f =>
          TileEvent.save f (pyReplace f (".png".toList) ".webp".toList) "WEBP".toList true ::
            if removePNG then [TileEvent.removeOrig f] else []) := by
  intro files
  induction files with
  | nil => intro fs _; rfl
  | cons f rest ih =>
    intro fs hok
    dsimp only [png2webpLoop] at hok ⊢
    by_cases ho : imgEnv.openFails f = true
    · rw [if_pos ho] at hok
      exact Except.noConfusion hok
    · rw [if_neg ho] at hok ⊢
      by_cases hs : imgEnv.saveFails f = true
      · rw [if_pos hs] at hok
        exact Except.noConfusion hok
      · rw [if_neg hs] at hok ⊢
        rw [List.flatMap_cons]
        by_cases hrp : removePNG = true
        · rw [if_pos hrp] at hok ⊢
          dsimp only at hok
          rw [ih _ hok]
          simp [hrp]
        · rw [if_neg hrp] at hok ⊢
          dsimp only at hok
          rw [ih _ hok]
          simp [hrp]

/-- A loop over files that all re-encode without error returns success. -/
theorem png2webpLoop_ok_of_all (removePNG : Bool) (imgEnv : ImgEnv) :
    ∀ files fs,
      (∀ g ∈ files, imgEnv.openFails g = false ∧ imgEnv.saveFails g = false) →
      (png2webpLoop removePNG imgEnv files fs).1 = Except.ok () := by
  intro files
  induction files with
  | nil => intro fs _; rfl
  | cons f rest ih =>
    intro fs hall
    have hf := hall f (List.mem_cons_self f rest)
    have ho : ¬ imgEnv.openFails f = true := by rw [hf.1]; exact Bool.false_ne_true
    have hs : ¬ imgEnv.saveFails f = true := by rw [hf.2]; exact Bool.false_ne_true
    dsimp only [png2webpLoop]
    rw [if_neg ho, if_neg hs]
    split <;>
      exact ih _ (fun g hg => hall g (List.mem_cons_of_mem _ hg))

/-- If every file before `f` re-encodes without error and `f` raises, the
loop stops at `f` with that error, having processed exactly the files
before `f`: the filesystem and events are those of the successful prefix,
nothing is rolled back, and no later file is touched. -/
theorem png2webpLoop_abort (removePNG : Bool) (imgEnv : ImgEnv) :
    ∀ pre f post fs,
      (∀ g ∈ pre, imgEnv.openFails g = false ∧ imgEnv.saveFails g = false) →
      (imgEnv.openFails f = true ∨ imgEnv.saveFails f = true) →
      png2webpLoop removePNG imgEnv (pre ++ f :: post) fs =
        (Except.error (PyError.imageError f),
         (png2webpLoop removePNG imgEnv pre fs).2.1,
         (png2webpLoop removePNG imgEnv pre fs).2.2) := by
  intro pre
  induction pre with
  | nil =>
    intro f post fs _ hf
    dsimp only [List.nil_append, png2webpLoop]
    rcases hf with hf | hf
    · rw [hf]
      rfl
    · rw [hf]
      split <;> rfl
  | cons g pre ih =>
    intro f post fs hall hf
    have hg := hall g (List.mem_cons_self g pre)
    have hrest := fun x hx => hall x (List.mem_cons_of_mem _ hx)
    have ho : ¬ imgEnv.openFails g = true := by rw [hg.1]; exact Bool.false_ne_true
    have hs : ¬ imgEnv.saveFails g = true := by rw [hg.2]; exact Bool.false_ne_true
    dsimp only [List.cons_append, png2webpLoop]
    rw [if_neg ho, if_neg hs]
    split <;> rw [ih f post _ hrest hf]

/-- Claim C6: an image decode or encode error on a single tile propagates
as the first error and aborts the remaining batch: the operation returns
that error, its events are exactly those of the files before the failing
one (so later tiles are untouched and nothing already converted or deleted
is restored), and the filesystem is that of the successful prefix. -/
theorem c6_first_error_aborts_batch (self : Dem2TerrainRgb) (removePNG : Bool)
    (imgEnv : ImgEnv) (fs : FS) (pre : List FPath) (f : FPath) (post : List FPath)
    (hglob : globPngRecursive fs self.dist = pre ++ f :: post)
    (hpre : ∀ g ∈ pre, imgEnv.openFails g = false ∧ imgEnv.saveFails g = false)
    (hf : imgEnv.openFails f = true ∨ imgEnv.saveFails f = true) :
    self.png2webp removePNG imgEnv fs =
      (Except.error (PyError.imageError f),
       (png2webpLoop removePNG imgEnv pre fs).2.1,
       pre.flatMap (fun g =>
         TileEvent.save g (pyReplace g (".png".toList) ".webp".toList) "WEBP".toList true ::
           if removePNG then [TileEvent.removeOrig g] else [])) := by
  have hok := png2webpLoop_ok_of_all removePNG imgEnv pre fs hpre
  have htr := png2webpLoop_trace_of_ok removePNG imgEnv pre fs hok
  dsimp only [Dem2TerrainRgb.png2webp]
  rw [hglob, png2webpLoop_abort removePNG imgEnv pre f post fs hpre hf, htr]

/-- Claim C5 counterexample: on the tile file `t/a.png.png` discovered under
destination `t`, png2webp saves to `t/a.webp.webp` (every occurrence of
`.png` in the path replaced), not to the extension-swapped path
`t/a.png.webp`, which is not written at all. -/
theorem c5_counterexample :
    (Dem2TerrainRgb.png2webp ⟨"dem.tif".toList, "t".toList, "tmp".toList, "5-15".toList⟩
        false ⟨fun _ => false, fun _ => false⟩ ⟨["t/a.png.png".toList], []⟩).2.2 =
      [TileEvent.save ("t/a.png.png".toList) "t/a.webp.webp".toList ("WEBP".toList) true] ∧
    ("t/a.png.png".toList.take 8 ++ "webp".toList) = "t/a.png.webp".toList ∧
    "t/a.webp.webp".toList ≠ "t/a.png.webp".toList ∧
    (Dem2TerrainRgb.png2webp ⟨"dem.tif".toList, "t".toList, "tmp".toList, "5-15".toList⟩
        false ⟨fun _ => false, fun _ => false⟩ ⟨["t/a.png.png".toList], []⟩).2.1.fileExists
      "t/a.png.webp".toList = false := by
  decide

/-- Claim C5 as amended: for every tile image discovered under the
destination directory, png2webp (on an error-free run) writes the lossless
WEBP re-encoding at the path obtained by replacing every occurrence of
`.png` in the discovered path by `.webp` (which coincides with swapping the
extension whenever `.png` occurs only as the final extension), and deletes
the original after the save exactly when the remove flag is set. -/
theorem c5_replace_all_occurrences (self : Dem2TerrainRgb) (removePNG : Bool)
    (imgEnv : ImgEnv) (fs : FS)
    (hok : (self.png2webp removePNG imgEnv fs).1 = Except.ok ()) :
    (self.png2webp removePNG imgEnv fs).2.2 =
      (globPngRecursive fs self.dist).flatMap (fun f =>
        TileEvent.save f (pyReplace f (".png".toList) ".webp".toList) "WEBP".toList true ::
          if removePNG then [TileEvent.removeOrig f] else []) :=
  png2webpLoop_trace_of_ok removePNG imgEnv (globPngRecursive fs self.dist) fs hok

/-! Lemmas about the path helpers, used to show that the computed
intermediate paths can never coincide with the source DEM path. -/

theorem isPrefixSeq_append (u v : FPath) : isPrefixSeq u (u ++ v) = true := by
  induction u with
  | nil => rfl
  | cons a as ih => simp [isPrefixSeq, ih]

theorem exists_append_of_isPrefixSeq :
    ∀ u v : FPath, isPrefixSeq u v = true → ∃ w, v = u ++ w := by
  intro u
  induction u with
  | nil => exact fun v _ => ⟨v, rfl⟩
  | cons a as ih =>
    intro v hv
    cases v with
    | nil => exact absurd hv (by simp [isPrefixSeq])
    | cons b bs =>
      simp only [isPrefixSeq, Bool.and_eq_true, decide_eq_true_eq] at hv
      obtain ⟨w, hw⟩ := ih bs hv.2
      exact ⟨w, by rw [hv.1, hw]; rfl⟩

theorem hasInfixSeq_cons (n : FPath) (c : Char) (t : FPath)
    (h : hasInfixSeq n t = true) : hasInfixSeq n (c :: t) = true := by
  rw [hasInfixSeq]
  rw [h]
  exact Bool.or_true _

theorem hasInfixSeq_append_left (n t : FPath) : hasInfixSeq n (n ++ t) = true := by
  rw [hasInfixSeq.eq_def, isPrefixSeq_append, Bool.true_or]

theorem hasInfixSeq_append_right (n : FPath) :
    ∀ w : FPath, hasInfixSeq n (w ++ n) = true := by
  intro w
  induction w with
  | nil =>
    have := hasInfixSeq_append_left n []
    rw [List.append_nil] at this
    exact this
  | cons c cs ih => exact hasInfixSeq_cons n c _ ih

theorem hasInfixSeq_of_isSuffixSeq (n p : FPath)
    (h : isSuffixSeq n p = true) : hasInfixSeq n p = true := by
  rw [isSuffixSeq] at h
  obtain ⟨w, hw⟩ := exists_append_of_isPrefixSeq _ _ h
  have hp : p = w.reverse ++ n := by
    have := congrArg List.reverse hw
    rw [List.reverse_reverse, List.reverse_append, List.reverse_reverse] at this
    exact this
  rw [hp]
  exact hasInfixSeq_append_right n w.reverse

theorem pyReplaceAux_new_appears (new old : FPath) (hne : old ≠ []) :
    ∀ fuel s, s.length ≤ fuel → hasInfixSeq old s = true →
      hasInfixSeq new (pyReplaceAux new old fuel s) = true := by
  intro fuel
  induction fuel with
  | zero =>
    intro s hlen hinf
    have hs : s = [] := List.length_eq_zero.mp (Nat.le_zero.mp hlen)
    subst hs
    rw [hasInfixSeq] at hinf
    cases old with
    | nil => exact absurd rfl hne
    | cons a as => exact absurd hinf (by simp [isPrefixSeq])
  | succ fuel ih =>
    intro s hlen hinf
    cases s with
    | nil =>
      rw [hasInfixSeq] at hinf
      cases old with
      | nil => exact absurd rfl hne
      | cons a as => exact absurd hinf (by simp [isPrefixSeq])
    | cons c rest =>
      by_cases hc : old ≠ [] ∧ isPrefixSeq old (c :: rest) = true
      · rw [pyReplaceAux, if_pos hc]
        exact hasInfixSeq_append_left new _
      · rw [pyReplaceAux, if_neg hc]
        have hpre : isPrefixSeq old (c :: rest) = false := by
          rcases Bool.eq_false_or_eq_true (isPrefixSeq old (c :: rest)) with hb | hb
          · exact absurd ⟨hne, hb⟩ hc
          · exact hb
        rw [hasInfixSeq, hpre, Bool.false_or] at hinf
        have hlen' : rest.length ≤ fuel := by
          simp only [List.length_cons] at hlen
          omega
        exact hasInfixSeq_cons new c _ (ih rest hlen' hinf)

theorem pyReplace_new_appears (s old new : FPath) (hne : old ≠ [])
    (hinf : hasInfixSeq old s = true) :
    hasInfixSeq new (pyReplace s old new) = true :=
  pyReplaceAux_new_appears new old hne s.length s (Nat.le_refl _) hinf

theorem mem_basename_ne_slash (p : FPath) :
    ∀ c ∈ basename p, c ≠ '/' := by
  intro c hc
  rw [basename] at hc
  rw [List.mem_reverse] at hc
  have := List.mem_takeWhile_imp hc
  simpa using this

theorem basename_of_noslash (p : FPath) (h : ∀ c ∈ p, c ≠ '/') :
    basename p = p := by
  rw [basename, List.takeWhile_eq_self_iff.mpr, List.reverse_reverse]
  intro c hc
  rw [List.mem_reverse] at hc
  simpa using h c hc

theorem takeWhile_append_all {pr : Char → Bool} :
    ∀ u v : FPath, (∀ c ∈ u, pr c = true) →
      List.takeWhile pr (u ++ v) = u ++ List.takeWhile pr v := by
  intro u
  induction u with
  | nil => intro v _; rfl
  | cons a as ih =>
    intro v h
    rw [List.cons_append, List.takeWhile_cons, if_pos (h a (List.mem_cons_self a as)),
      ih v (fun c hc => h c (List.mem_cons_of_mem _ hc))]
    rfl

theorem basename_append_noslash (a b : FPath) (h : ∀ c ∈ b, c ≠ '/') :
    basename (a ++ '/' :: b) = b := by
  rw [basename]
  have hrev : (a ++ '/' :: b).reverse = b.reverse ++ '/' :: a.reverse := by
    simp
  rw [hrev, takeWhile_append_all b.reverse ('/' :: a.reverse)
    (by intro c hc; rw [List.mem_reverse] at hc; simpa using h c hc)]
  rw [List.takeWhile_cons]
  simp

theorem mem_splitextRoot_sub (p : FPath) :
    ∀ c ∈ splitextRoot p, c ∈ p := by
  intro c hc
  rw [splitextRoot] at hc
  dsimp only at hc
  split at hc
  · exact hc
  · split at hc
    · rw [List.mem_reverse] at hc
      have := List.drop_subset _ _ hc
      rw [List.mem_reverse] at this
      exact this
    · exact hc

theorem splitextRoot_append_wn (s : FPath) :
    splitextRoot (s ++ "_without_nodata.tif".toList) = s ++ "_without_nodata".toList := by
  have hrev : (s ++ "_without_nodata.tif".toList).reverse
      = 'f' :: 'i' :: 't' :: '.' :: ("atadon_tuohtiw_".toList ++ s.reverse) := by
    rw [List.reverse_append]
    rfl
  have htw : List.takeWhile (fun c => c != '.')
      ('f' :: 'i' :: 't' :: '.' :: ("atadon_tuohtiw_".toList ++ s.reverse)) = ['f', 'i', 't'] := rfl
  have hdrop : ('f' :: 'i' :: 't' :: '.' :: ("atadon_tuohtiw_".toList ++ s.reverse)).drop
      ((['f', 'i', 't'] : List Char).length + 1) = "atadon_tuohtiw_".toList ++ s.reverse := rfl
  have hbefore : (("atadon_tuohtiw_".toList ++ s.reverse)).reverse
      = s ++ "_without_nodata".toList := by
    rw [List.reverse_append, List.reverse_reverse]
    rfl
  unfold splitextRoot
  rw [hrev]
  dsimp only
  rw [htw, hdrop, hbefore]
  have hl : ("atadon_tuohtiw_".toList).length = 15 := rfl
  rw [if_neg (by
    simp only [List.length_cons, List.length_append, List.length_nil, hl]
    omega)]
  rw [if_pos (by
    rw [List.any_append,
      show ("_without_nodata".toList.any fun c => c != '.') = true from rfl,
      Bool.or_true])]

theorem splitextRoot_append_rgb (s : FPath) :
    splitextRoot (s ++ "_RGB.tif".toList) = s ++ "_RGB".toList := by
  have hrev : (s ++ "_RGB.tif".toList).reverse
      = 'f' :: 'i' :: 't' :: '.' :: ("BGR_".toList ++ s.reverse) := by
    rw [List.reverse_append]
    rfl
  have htw : List.takeWhile (fun c => c != '.')
      ('f' :: 'i' :: 't' :: '.' :: ("BGR_".toList ++ s.reverse)) = ['f', 'i', 't'] := rfl
  have hdrop : ('f' :: 'i' :: 't' :: '.' :: ("BGR_".toList ++ s.reverse)).drop
      ((['f', 'i', 't'] : List Char).length + 1) = "BGR_".toList ++ s.reverse := rfl
  have hbefore : (("BGR_".toList ++ s.reverse)).reverse = s ++ "_RGB".toList := by
    rw [List.reverse_append, List.reverse_reverse]
    rfl
  unfold splitextRoot
  rw [hrev]
  dsimp only
  rw [htw, hdrop, hbefore]
  have hl : ("BGR_".toList).length = 4 := rfl
  rw [if_neg (by
    simp only [List.length_cons, List.length_append, List.length_nil, hl]
    omega)]
  rw [if_pos (by
    rw [List.any_append,
      show ("_RGB".toList.any fun c => c != '.') = true from rfl,
      Bool.or_true])]

/-- The computed fill_nodata output path can never equal the source DEM
path: its base name would have to end in the stage suffix, making the
extension-free root strictly longer than itself. -/
theorem fill_path_ne (tmp dem : FPath) :
    tmp ++ '/' :: (splitextRoot (basename dem) ++ "_without_nodata.tif".toList) ≠ dem := by
  intro heq
  have hlit : ∀ c ∈ "_without_nodata.tif".toList, c ≠ '/' := by decide
  have hns : ∀ c ∈ splitextRoot (basename dem) ++ "_without_nodata.tif".toList, c ≠ '/' := by
    intro c hc
    rcases List.mem_append.mp hc with h | h
    · exact mem_basename_ne_slash dem c (mem_splitextRoot_sub _ c h)
    · exact hlit c h
  have hb : basename dem = splitextRoot (basename dem) ++ "_without_nodata.tif".toList := by
    conv_lhs => rw [← heq]
    exact basename_append_noslash _ _ hns
  have hr := congrArg splitextRoot hb
  rw [splitextRoot_append_wn] at hr
  have hlen := congrArg List.length hr
  rw [List.length_append] at hlen
  have h15 : ("_without_nodata".toList).length = 15 := rfl
  omega

/-- The computed rgbify output path can never equal the source DEM path. -/
theorem rgb_path_ne (tmp dem : FPath) :
    tmp ++ '/' :: (splitextRoot (basename dem) ++ "_RGB.tif".toList) ≠ dem := by
  intro heq
  have hlit : ∀ c ∈ "_RGB.tif".toList, c ≠ '/' := by decide
  have hns : ∀ c ∈ splitextRoot (basename dem) ++ "_RGB.tif".toList, c ≠ '/' := by
    intro c hc
    rcases List.mem_append.mp hc with h | h
    · exact mem_basename_ne_slash dem c (mem_splitextRoot_sub _ c h)
    · exact hlit c h
  have hb : basename dem = splitextRoot (basename dem) ++ "_RGB.tif".toList := by
    conv_lhs => rw [← heq]
    exact basename_append_noslash _ _ hns
  have hr := congrArg splitextRoot hb
  rw [splitextRoot_append_rgb] at hr
  have hlen := congrArg List.length hr
  rw [List.length_append] at hlen
  have h4 : ("_RGB".toList).length = 4 := rfl
  omega

/-! Preservation of the source DEM file by each operation. -/

theorem fill_nodata_preserves_dem (self : Dem2TerrainRgb) (env : Env) (fs : FS)
    (henv : ∀ cmd fs2, self.dem ∈ fs2.files → self.dem ∈ (env cmd fs2).2.files)
    (hmem : self.dem ∈ fs.files) :
    self.dem ∈ (self.fill_nodata env fs).2.1.files := by
  rw [fill_nodata_eq]
  dsimp only
  apply henv
  split <;> split
  all_goals first
    | exact List.mem_filter.mpr ⟨hmem,
        decide_eq_true (Ne.symm (fill_path_ne self.tmp self.dem))⟩
    | exact hmem

theorem rgbify_preserves_dem (self : Dem2TerrainRgb) (filled : FPath) (env : Env) (fs : FS)
    (henv : ∀ cmd fs2, self.dem ∈ fs2.files → self.dem ∈ (env cmd fs2).2.files)
    (hmem : self.dem ∈ fs.files) :
    self.dem ∈ (self.rgbify filled env fs).2.1.files := by
  rw [rgbify_eq]
  dsimp only
  apply henv
  split
  · exact List.mem_filter.mpr ⟨hmem,
      decide_eq_true (Ne.symm (rgb_path_ne self.tmp self.dem))⟩
  · exact hmem

theorem gdal2tiles_preserves_dem (self : Dem2TerrainRgb) (rgb : FPath) (env : Env) (fs : FS)
    (henv : ∀ cmd fs2, self.dem ∈ fs2.files → self.dem ∈ (env cmd fs2).2.files)
    (hpre : isPrefixSeq (self.dist ++ ['/']) self.dem = false)
    (hnedist : self.dem ≠ self.dist)
    (hmem : self.dem ∈ fs.files) :
    self.dem ∈ (self.gdal2tiles rgb env fs).2.1.files := by
  rw [gdal2tiles_eq]
  dsimp only
  apply henv
  split
  · refine List.mem_filter.mpr ⟨hmem, ?_⟩
    rw [decide_eq_false hnedist, hpre]
    rfl
  · exact hmem

theorem png2webpLoop_preserves (removePNG : Bool) (imgEnv : ImgEnv) (dem : FPath) :
    ∀ files fs, (∀ g ∈ files, g ≠ dem) → dem ∈ fs.files →
      dem ∈ (png2webpLoop removePNG imgEnv files fs).2.1.files := by
  intro files
  induction files with
  | nil => intro fs _ hmem; exact hmem
  | cons f rest ih =>
    intro fs hne hmem
    dsimp only [png2webpLoop]
    split
    · exact hmem
    · split
      · exact hmem
      · have hrest := fun g hg => hne g (List.mem_cons_of_mem _ hg)
        split
        · exact ih _ hrest (List.mem_filter.mpr
            ⟨List.mem_cons_of_mem _ hmem,
             decide_eq_true (Ne.symm (hne f (List.mem_cons_self f rest)))⟩)
        · exact ih _ hrest (List.mem_cons_of_mem _ hmem)

theorem png2webpLoop_events_untouched (removePNG : Bool) (imgEnv : ImgEnv) (dem : FPath) :
    ∀ files fs,
      (∀ g ∈ files, g ≠ dem ∧ pyReplace g (".png".toList) ".webp".toList ≠ dem) →
      ∀ ev ∈ (png2webpLoop removePNG imgEnv files fs).2.2, ev.touches dem = false := by
  intro files
  induction files with
  | nil => intro fs _ ev hev; exact absurd hev (List.not_mem_nil ev)
  | cons f rest ih =>
    intro fs hg ev hev
    have hf := hg f (List.mem_cons_self f rest)
    have hrest := fun g hgm => hg g (List.mem_cons_of_mem _ hgm)
    dsimp only [png2webpLoop] at hev
    split at hev
    · exact absurd hev (List.not_mem_nil ev)
    · split at hev
      · exact absurd hev (List.not_mem_nil ev)
      · split at hev
        · rcases List.mem_cons.mp hev with h | h
          · rw [h]
            exact decide_eq_false hf.2
          · rcases List.mem_cons.mp h with h2 | h2
            · rw [h2]
              exact decide_eq_false hf.1
            · exact ih _ hrest ev h2
        · rcases List.mem_cons.mp hev with h | h
          · rw [h]
            exact decide_eq_false hf.2
          · exact ih _ hrest ev h

theorem glob_mem_facts (fs : FS) (dist g : FPath)
    (hg : g ∈ globPngRecursive fs dist) :
    isPrefixSeq (dist ++ ['/']) g = true ∧ isSuffixSeq (".png".toList) g = true := by
  have h := (List.mem_filter.mp hg).2
  simpa only [Bool.and_eq_true] using h

theorem png2webp_preserves_dem (self : Dem2TerrainRgb) (removePNG : Bool)
    (imgEnv : ImgEnv) (fs : FS)
    (hpre : isPrefixSeq (self.dist ++ ['/']) self.dem = false)
    (hwebp : hasInfixSeq (".webp".toList) self.dem = false)
    (hmem : self.dem ∈ fs.files) :
    self.dem ∈ (self.png2webp removePNG imgEnv fs).2.1.files ∧
    ∀ ev ∈ (self.png2webp removePNG imgEnv fs).2.2, ev.touches self.dem = false := by
  have hne : ∀ g ∈ globPngRecursive fs self.dist, g ≠ self.dem := by
    intro g hg heq
    have := (glob_mem_facts fs self.dist g hg).1
    rw [heq, hpre] at this
    exact Bool.false_ne_true this
  have hout : ∀ g ∈ globPngRecursive fs self.dist,
      pyReplace g (".png".toList) ".webp".toList ≠ self.dem := by
    intro g hg heq
    have hsuf := (glob_mem_facts fs self.dist g hg).2
    have hinf : hasInfixSeq (".png".toList) g = true :=
      hasInfixSeq_of_isSuffixSeq _ _ hsuf
    have hout := pyReplace_new_appears g (".png".toList) ".webp".toList (by decide) hinf
    rw [heq, hwebp] at hout
    exact Bool.false_ne_true hout
  constructor
  · exact png2webpLoop_preserves removePNG imgEnv self.dem _ fs hne hmem
  · exact png2webpLoop_events_untouched removePNG imgEnv self.dem _ fs
      (fun g hg => ⟨hne g hg, hout g hg⟩)

/-- Claim C9 counterexample: when the source DEM lies inside the destination
directory, the gdal2tiles stage of the pipeline deletes it: with DEM
`d/x.tif` and destination `d`, even though every external tool leaves the
filesystem unchanged, after the pipeline the source DEM file is gone. -/
theorem c9_counterexample :
    "d/x.tif".toList ∈ (⟨["d/x.tif".toList], ["d".toList]⟩ : FS).files ∧
    "d/x.tif".toList ∉ (mainPipeline
      ⟨"d/x.tif".toList, "d".toList, "tmp".toList, "5-15".toList, false, false⟩
      (fun _ fs => (0, fs)) ⟨fun _ => false, fun _ => false⟩
      ⟨["d/x.tif".toList], ["d".toList]⟩).2.1.files := by
  decide

/-- Claim C9 as amended: provided the source DEM path does not equal the
destination directory, does not lie below it, and contains no occurrence of
`.webp`, and provided the external tools themselves preserve the source DEM
file, no operation of the orchestrator (fill_nodata, rgbify, gdal2tiles,
png2webp) and no full pipeline run deletes or overwrites the source DEM: it
stays present in the filesystem and no tile re-encoding event writes to or
removes its path. -/
theorem c9_source_dem_preserved (args : Args) (env : Env) (imgEnv : ImgEnv) (fs : FS)
    (henv : ∀ cmd fs2, args.dem ∈ fs2.files → args.dem ∈ (env cmd fs2).2.files)
    (hpre : isPrefixSeq (args.dist ++ ['/']) args.dem = false)
    (hnedist : args.dem ≠ args.dist)
    (hwebp : hasInfixSeq (".webp".toList) args.dem = false)
    (hmem : args.dem ∈ fs.files) :
    args.dem ∈ (args.toSelf.fill_nodata env fs).2.1.files ∧
    (∀ x, args.dem ∈ (args.toSelf.rgbify x env fs).2.1.files) ∧
    (∀ x, args.dem ∈ (args.toSelf.gdal2tiles x env fs).2.1.files) ∧
    (∀ b, args.dem ∈ (args.toSelf.png2webp b imgEnv fs).2.1.files ∧
      ∀ ev ∈ (args.toSelf.png2webp b imgEnv fs).2.2, ev.touches args.dem = false) ∧
    args.dem ∈ (mainPipeline args env imgEnv fs).2.1.files ∧
    (∀ ev ∈ (mainPipeline args env imgEnv fs).2.2.2, ev.touches args.dem = false) := by
  refine ⟨fill_nodata_preserves_dem args.toSelf env fs henv hmem,
    fun x => rgbify_preserves_dem args.toSelf x env fs henv hmem,
    fun x => gdal2tiles_preserves_dem args.toSelf x env fs henv hpre hnedist hmem,
    fun b => png2webp_preserves_dem args.toSelf b imgEnv fs hpre hwebp hmem,
    ?_⟩
  have h1 := fill_nodata_preserves_dem args.toSelf env fs henv hmem
  rcases hfe : args.toSelf.fill_nodata env fs with ⟨r1, fs1, tr1⟩
  rw [hfe] at h1
  dsimp only [mainPipeline]
  rw [hfe]
  cases r1 with
  | error e => exact ⟨h1, fun ev hev => absurd hev (List.not_mem_nil ev)⟩
  | ok p =>
    dsimp only
    have h2 := rgbify_preserves_dem args.toSelf p env fs1 henv h1
    rcases hre : args.toSelf.rgbify p env fs1 with ⟨r2, fs2, tr2⟩
    rw [hre] at h2
    cases r2 with
    | error e => exact ⟨h2, fun ev hev => absurd hev (List.not_mem_nil ev)⟩
    | ok q =>
      dsimp only
      have h3 := gdal2tiles_preserves_dem args.toSelf q env fs2 henv hpre hnedist h2
      rcases hte : args.toSelf.gdal2tiles q env fs2 with ⟨r3, fs3, tr3⟩
      rw [hte] at h3
      cases r3 with
      | error e => exact ⟨h3, fun ev hev => absurd hev (List.not_mem_nil ev)⟩
      | ok d =>
        dsimp only
        by_cases hw : args.webp = true
        · rw [if_pos hw]
          have h4 := png2webp_preserves_dem args.toSelf args.remove_png imgEnv fs3
            hpre hwebp h3
          exact ⟨h4.1, h4.2⟩
        · rw [if_neg hw]
          exact ⟨h3, fun ev hev => absurd hev (List.not_mem_nil ev)⟩

theorem pack_digits (m : Nat) (hm : m < 2 ^ 24) :
    (m / 65536 % 256) * 256 * 256 + (m / 256 % 256) * 256 + m % 256 = m := by
  omega

/-- Claim C7: for an elevation in the representable range, decoding the three
8-bit channels produced by the modelled encoder via
value = -10000 + (R*65536 + G*256 + B) * 0.1 recovers the input elevation
within the 0.1 quantization step, and the channels are 8-bit. -/
theorem c7_decode_within_quantization (h : ℚ)
    (hlo : -10000 ≤ h) (hhi : h < -10000 + (1 / 10) * 2 ^ 24) :
    (terrainRgbEncode h).1 < 256 ∧ (terrainRgbEncode h).2.1 < 256 ∧
    (terrainRgbEncode h).2.2 < 256 ∧
    terrainRgbDecode (terrainRgbEncode h).1 (terrainRgbEncode h).2.1
      (terrainRgbEncode h).2.2 ≤ h ∧
    h < terrainRgbDecode (terrainRgbEncode h).1 (terrainRgbEncode h).2.1
      (terrainRgbEncode h).2.2 + 1 / 10 := by
  have hx : (h - (-10000)) / (1 / 10) = (h + 10000) * 10 := by
    field_simp
  have hq0 : (0 : ℚ) ≤ (h - (-10000)) / (1 / 10) := by
    rw [hx]
    linarith
  have hqlt : (h - (-10000)) / (1 / 10) < 2 ^ 24 := by
    rw [hx]
    nlinarith [hhi]
  have hn0 : (0 : ℤ) ≤ ⌊(h - (-10000)) / (1 / 10)⌋ := Int.floor_nonneg.mpr hq0
  have hcast : ((⌊(h - (-10000)) / (1 / 10)⌋.toNat : ℤ)) =
      ⌊(h - (-10000)) / (1 / 10)⌋ := Int.toNat_of_nonneg hn0
  have hfl : (((⌊(h - (-10000)) / (1 / 10)⌋ : ℤ) : ℚ)) ≤ (h + 10000) * 10 := by
    rw [← hx]
    exact Int.floor_le _
  have hfu : (h + 10000) * 10 < ((⌊(h - (-10000)) / (1 / 10)⌋ : ℤ) : ℚ) + 1 := by
    rw [← hx]
    exact Int.lt_floor_add_one _
  have hm24 : ⌊(h - (-10000)) / (1 / 10)⌋.toNat < 2 ^ 24 := by
    have hlt : ⌊(h - (-10000)) / (1 / 10)⌋ < (2 : ℤ) ^ 24 := by
      have := lt_of_le_of_lt (Int.floor_le ((h - (-10000)) / (1 / 10))) hqlt
      exact_mod_cast this
    omega
  have hpack : (⌊(h - (-10000)) / (1 / 10)⌋.toNat / 65536 % 256) * 256 * 256 +
      (⌊(h - (-10000)) / (1 / 10)⌋.toNat / 256 % 256) * 256 +
      ⌊(h - (-10000)) / (1 / 10)⌋.toNat % 256 =
      ⌊(h - (-10000)) / (1 / 10)⌋.toNat := pack_digits _ hm24
  have hmq : ((⌊(h - (-10000)) / (1 / 10)⌋.toNat : ℚ)) =
      ((⌊(h - (-10000)) / (1 / 10)⌋ : ℤ) : ℚ) := by
    exact_mod_cast congrArg (fun z : ℤ => (z : ℚ)) hcast
  refine ⟨?_, ?_, ?_, ?_, ?_⟩
  · exact Nat.mod_lt _ (by norm_num)
  · exact Nat.mod_lt _ (by norm_num)
  · exact Nat.mod_lt _ (by norm_num)
  · dsimp only [terrainRgbEncode, terrainRgbDecode]
    have hpackQ : ((⌊(h - (-10000)) / (1 / 10)⌋.toNat / 65536 % 256 : Nat) : ℚ) * 256 * 256 +
        ((⌊(h - (-10000)) / (1 / 10)⌋.toNat / 256 % 256 : Nat) : ℚ) * 256 +
        ((⌊(h - (-10000)) / (1 / 10)⌋.toNat % 256 : Nat) : ℚ) =
        ((⌊(h - (-10000)) / (1 / 10)⌋.toNat : Nat) : ℚ) := by
      exact_mod_cast hpack
    rw [hpackQ, hmq]
    linarith
  · dsimp only [terrainRgbEncode, terrainRgbDecode]
    have hpackQ : ((⌊(h - (-10000)) / (1 / 10)⌋.toNat / 65536 % 256 : Nat) : ℚ) * 256 * 256 +
        ((⌊(h - (-10000)) / (1 / 10)⌋.toNat / 256 % 256 : Nat) : ℚ) * 256 +
        ((⌊(h - (-10000)) / (1 / 10)⌋.toNat % 256 : Nat) : ℚ) =
        ((⌊(h - (-10000)) / (1 / 10)⌋.toNat : Nat) : ℚ) := by
      exact_mod_cast hpack
    rw [hpackQ, hmq]
    linarith

/-- Claim C10: the output path computed by rgbify depends only on the
constructor dem and tmp values, not on its filled_dem argument: two calls with
different arguments (even under different tool behaviours and filesystems)
issue their command with the identical output path, and whenever both succeed
they return the identical path. -/
theorem c10_rgbify_path_ignores_argument (self : Dem2TerrainRgb) (x y : FPath)
    (envA envB : Env) (fsA fsB : FS) :
    ((self.rgbify x envA fsA).2.2.map (fun t => t.1.dst) =
      (self.rgbify y envB fsB).2.2.map (fun t => t.1.dst)) ∧
    (∀ p q, (self.rgbify x envA fsA).1 = Except.ok p →
      (self.rgbify y envB fsB).1 = Except.ok q → p = q) := by
  rw [rgbify_eq, rgbify_eq]
  constructor
  · rfl
  · intro p q hp hq
    dsimp only at hp hq
    repeat' split at hp
    all_goals repeat' split at hq
    all_goals first
      | exact (Except.ok.inj hp).symm.trans (Except.ok.inj hq)
      | exact Except.noConfusion hp
      | exact Except.noConfusion hq

/-! Witnesses: concrete instantiations of the claim theorems. -/

theorem c1_witness :
    (Dem2TerrainRgb.fill_nodata
        ⟨"data/dem.tif".toList, "tiles".toList, "tmp".toList, "5-15".toList⟩
        (fun _ fs => (1, fs)) ⟨[], []⟩).1 =
      Except.error (PyError.calledProcess
        (Cmd.gdalwarp ("EPSG:3857".toList) "None".toList ("TILED=YES".toList)
          "COMPRESS=DEFLATE".toList ("BIGTIFF=IF_NEEDED".toList)
          "data/dem.tif".toList ("tmp/dem_without_nodata.tif".toList)) 1) ∧
    (Dem2TerrainRgb.fill_nodata
        ⟨"data/dem.tif".toList, "tiles".toList, "tmp".toList, "5-15".toList⟩
        (fun _ fs => (1, fs)) ⟨[], []⟩).2.1 = ⟨[], ["tmp".toList]⟩ :=
  (c1_tool_failure_aborts
      ⟨"data/dem.tif".toList, "tiles".toList, "tmp".toList, "5-15".toList⟩
      ⟨"data/dem.tif".toList, "tiles".toList, "tmp".toList, "5-15".toList, false, false⟩
      [] [] (fun _ fs => (1, fs)) ⟨fun _ => false, fun _ => false⟩ ⟨[], []⟩).1.2
    (Cmd.gdalwarp ("EPSG:3857".toList) "None".toList ("TILED=YES".toList)
      "COMPRESS=DEFLATE".toList ("BIGTIFF=IF_NEEDED".toList)
      "data/dem.tif".toList ("tmp/dem_without_nodata.tif".toList))
    ⟨[], ["tmp".toList]⟩ (by decide) (by decide)

theorem c2_witness :
    FS.fileExists ⟨[], ["tmp".toList]⟩
      (Cmd.dst (Cmd.gdalwarp ("EPSG:3857".toList) "None".toList ("TILED=YES".toList)
        "COMPRESS=DEFLATE".toList ("BIGTIFF=IF_NEEDED".toList)
        "data/dem.tif".toList ("tmp/dem_without_nodata.tif".toList))) = false :=
  (c2_full_regeneration
      ⟨"data/dem.tif".toList, "tiles".toList, "tmp".toList, "5-15".toList⟩
      [] [] (fun _ fs => (0, fs)) ⟨[], []⟩).1
    (Cmd.gdalwarp ("EPSG:3857".toList) "None".toList ("TILED=YES".toList)
      "COMPRESS=DEFLATE".toList ("BIGTIFF=IF_NEEDED".toList)
      "data/dem.tif".toList ("tmp/dem_without_nodata.tif".toList))
    ⟨[], ["tmp".toList]⟩ (by decide)

theorem c3_witness :
    "tmp/dem_without_nodata.tif".toList =
      "tmp".toList ++ '/' :: (splitextRoot (basename ("data/dem.tif".toList)) ++
        "_without_nodata.tif".toList) :=
  (c3_deterministic_paths
      ⟨"data/dem.tif".toList, "tiles".toList, "tmp".toList, "5-15".toList⟩
      [] [] (fun _ fs => (0, fs)) ⟨[], []⟩).1
    "tmp/dem_without_nodata.tif".toList (by decide)

theorem c5_witness :
    (Dem2TerrainRgb.png2webp ⟨"dem.tif".toList, "t".toList, "tmp".toList, "5-15".toList⟩
        true ⟨fun _ => false, fun _ => false⟩ ⟨["t/a.png".toList], []⟩).2.2 =
      (globPngRecursive ⟨["t/a.png".toList], []⟩ "t".toList).flatMap (fun f =>
        TileEvent.save f (pyReplace f (".png".toList) ".webp".toList) "WEBP".toList true ::
          if (true : Bool) then [TileEvent.removeOrig f] else []) :=
  c5_replace_all_occurrences
    ⟨"dem.tif".toList, "t".toList, "tmp".toList, "5-15".toList⟩ true
    ⟨fun _ => false, fun _ => false⟩ ⟨["t/a.png".toList], []⟩ (by decide)

theorem c6_witness :
    Dem2TerrainRgb.png2webp ⟨"dem.tif".toList, "t".toList, "tmp".toList, "5-15".toList⟩
        false ⟨fun p => decide (p = "t/b.png".toList), fun _ => false⟩
        ⟨["t/a.png".toList, "t/b.png".toList], []⟩ =
      (Except.error (PyError.imageError ("t/b.png".toList)),
       (png2webpLoop false ⟨fun p => decide (p = "t/b.png".toList), fun _ => false⟩
         ["t/a.png".toList] ⟨["t/a.png".toList, "t/b.png".toList], []⟩).2.1,
       (["t/a.png".toList] : List FPath).flatMap (fun g =>
         TileEvent.save g (pyReplace g (".png".toList) ".webp".toList) "WEBP".toList true ::
           if (false : Bool) then [TileEvent.removeOrig g] else [])) :=
  c6_first_error_aborts_batch
    ⟨"dem.tif".toList, "t".toList, "tmp".toList, "5-15".toList⟩ false
    ⟨fun p => decide (p = "t/b.png".toList), fun _ => false⟩
    ⟨["t/a.png".toList, "t/b.png".toList], []⟩
    ["t/a.png".toList] "t/b.png".toList [] (by decide) (by decide) (Or.inl (by decide))

theorem c7_witness :
    ((-10000 : ℚ) ≤ 0 ∧ (0 : ℚ) < -10000 + (1 / 10) * 2 ^ 24) ∧
    ((terrainRgbEncode 0).1 < 256 ∧ (terrainRgbEncode 0).2.1 < 256 ∧
      (terrainRgbEncode 0).2.2 < 256 ∧
      terrainRgbDecode (terrainRgbEncode 0).1 (terrainRgbEncode 0).2.1
        (terrainRgbEncode 0).2.2 ≤ 0 ∧
      (0 : ℚ) < terrainRgbDecode (terrainRgbEncode 0).1 (terrainRgbEncode 0).2.1
        (terrainRgbEncode 0).2.2 + 1 / 10) :=
  ⟨⟨by norm_num, by norm_num⟩,
    c7_decode_within_quantization 0 (by norm_num) (by norm_num)⟩

theorem c9_witness :
    "data/dem.tif".toList ∈ (mainPipeline
      ⟨"data/dem.tif".toList, "tiles".toList, "tmp".toList, "5-15".toList, true, true⟩
      (fun _ fs => (0, fs)) ⟨fun _ => false, fun _ => false⟩
      ⟨["data/dem.tif".toList], []⟩).2.1.files :=
  ((c9_source_dem_preserved
      ⟨"data/dem.tif".toList, "tiles".toList, "tmp".toList, "5-15".toList, true, true⟩
      (fun _ fs => (0, fs)) ⟨fun _ => false, fun _ => false⟩
      ⟨["data/dem.tif".toList], []⟩
      (fun _ _ h => h) (by decide) (by decide) (by decide) (by decide)).2.2.2.2).1

theorem c10_witness :
    (Dem2TerrainRgb.rgbify
        ⟨"data/dem.tif".toList, "tiles".toList, "tmp".toList, "5-15".toList⟩
        "x.tif".toList (fun _ fs => (0, fs)) ⟨[], []⟩).1 =
      Except.ok ("tmp/dem_RGB.tif".toList) ∧
    (Dem2TerrainRgb.rgbify
        ⟨"data/dem.tif".toList, "tiles".toList, "tmp".toList, "5-15".toList⟩
        "y.tif".toList (fun _ fs => (0, fs)) ⟨[], []⟩).1 =
      Except.ok ("tmp/dem_RGB.tif".toList) ∧
    ("tmp/dem_RGB.tif".toList : FPath) = "tmp/dem_RGB.tif".toList :=
  ⟨by decide, by decide,
    (c10_rgbify_path_ignores_argument
        ⟨"data/dem.tif".toList, "tiles".toList, "tmp".toList, "5-15".toList⟩
        "x.tif".toList ("y.tif".toList) (fun _ fs => (0, fs)) (fun _ fs => (0, fs))
        ⟨[], []⟩ ⟨[], []⟩).2
      "tmp/dem_RGB.tif".toList ("tmp/dem_RGB.tif".toList) (by decide) (by decide)⟩
